import Mathlib

/-!
Verification development for the Poizon → WooCommerce product synchronization
service (`poizon_api_fixed.py`, `poizon_to_wordpress_service.py`, `web_app.py`).

The Python code is shallowly embedded: prices are rationals (Python floats are
used only for decimal currency arithmetic in the source), Python dicts appear
as association lists in insertion order, `None`-able values as `Option`, and
the one place where the source can raise an exception inside the modelled core
(an unbound local variable in the variation-building loop) is rendered with
`Except`.
-/

namespace Spec2Proof

/-- Python `round` on a (non-negative or negative) number: round half to even,
as used by `SyncSettings.apply_price_transformation`
(`poizon_to_wordpress_service.py` line 73). -/
def pyRound (q : ℚ) : ℤ :=
  if q - (⌊q⌋ : ℚ) < 1/2 then ⌊q⌋
  else if 1/2 < q - (⌊q⌋ : ℚ) then ⌊q⌋ + 1
  else if ⌊q⌋ % 2 = 0 then ⌊q⌋ else ⌊q⌋ + 1

/-- Python `int()` applied to a number: truncation toward zero, as used by the
fast price-update path (`poizon_to_wordpress_service.py` line 1266). -/
def pyInt (q : ℚ) : ℤ :=
  if 0 ≤ q then ⌊q⌋ else -⌊-q⌋

/-- `SyncSettings.apply_price_transformation` (`poizon_to_wordpress_service.py`
lines 55-73): convert by the currency rate, add the ruble markup only when it
is positive, and round to whole rubles.  Python `round` returns an `int`, hence
the return type `ℤ` (the "always a whole number" part of the contract). -/
def applyPriceTransformation (currencyRate markupRubles priceYuan : ℚ) : ℤ :=
  let priceRub := priceYuan * currencyRate
  let priceRub' := if markupRubles > 0 then priceRub + markupRubles else priceRub
  pyRound priceRub'

/-- The fast price computation of `WooCommerceService.update_product_prices_only`
(`poizon_to_wordpress_service.py` lines 1264-1266):
`price_rub = price * rate; final = int(price_rub + markup)`. -/
def fastFinalPrice (currencyRate markupRubles priceYuan : ℚ) : ℤ :=
  let priceRub := priceYuan * currencyRate
  pyInt (priceRub + markupRubles)

/-- The minor-unit heuristic of `get_product_full_info`
(`poizon_api_fixed.py` lines 586-589): a raw price strictly above 10000 is
taken to be in fen (1/100 yuan) and divided by 100. -/
def effectivePrice (priceYuan : ℚ) : ℚ :=
  if priceYuan > 10000 then priceYuan / 100 else priceYuan

/-! ## Upstream data model (`poizon_api_fixed.py`) -/

/-- One entry of the `saleProperties.list` array of `productDetailV3`:
a `{name, value, propertyValueId}` triple.  `propertyValueId` may be missing
(`dict.get` returns `None`), hence `Option`. -/
structure SaleProp where
  name : String
  value : String
  propertyValueId : Option ℤ
deriving Repr, DecidableEq

/-- One property reference of a SKU entry (`sku['properties']`). -/
structure SkuProp where
  propertyValueId : Option ℤ
deriving Repr, DecidableEq

/-- One entry of the `skus` array of `productDetailV3`.  The source compares
`str(sku_item.get('skuId'))` with the price-dict key, so the id is modelled
directly as its string form. -/
structure SkuItem where
  skuId : String
  properties : List SkuProp
deriving Repr, DecidableEq

/-- One value of the mapping returned by `get_price_info`
(`poizon_api_fixed.py` lines 197-237): `{price: float, stock: int}`. -/
structure PriceEntry where
  price : ℚ
  stock : ℤ
deriving Repr, DecidableEq

/-- A normalized variation record as built by `get_product_full_info`
(`poizon_api_fixed.py` lines 591-606).  `color = none` / `images = none`
model the corresponding dict key being absent. -/
structure Variation where
  sku_id : String
  size : String
  price : ℚ
  stock : ℤ
  color : Option String
  images : Option (List String)
deriving Repr, DecidableEq

/-- Python truthiness of an optional integer (`None` and `0` are falsy). -/
def optIntTruthy : Option ℤ → Bool
  | none => false
  | some v => v != 0

/-- Python truthiness of an optional string (`None` and the empty string are
falsy). -/
def optStrTruthy : Option String → Bool
  | none => false
  | some s => s != ""

/-- Python `needle in hay` on lists of characters. -/
def listInfixOf (needle : List Char) : List Char → Bool
  | [] => needle.isEmpty
  | c :: rest => needle.isPrefixOf (c :: rest) || listInfixOf needle rest

/-- Python substring test `needle in hay` on strings. -/
def strContains (hay needle : String) : Bool :=
  listInfixOf needle.data hay.data

/-- Python dict assignment `d[k] = v` on an association list kept in insertion
order: an existing key is updated in place, a new key is appended. -/
def dictInsert {α : Type} (k : ℤ) (v : α) : List (ℤ × α) → List (ℤ × α)
  | [] => [(k, v)]
  | (k', v') :: rest =>
      if k' = k then (k, v) :: rest else (k', v') :: dictInsert k v rest

/-! ## Attribute extraction (`poizon_api_fixed.py` lines 299-316) -/

/-- The size-marker test of line 311: `'尺码' in prop_name and size_value and
property_value_id`. -/
def sizeEntryCond (p : SaleProp) : Bool :=
  strContains p.name "尺码" && p.value != "" && optIntTruthy p.propertyValueId

/-- The color-marker test of line 315: `'颜色' in prop_name and size_value and
property_value_id`.  Note this is a second independent `if`, not an `elif`. -/
def colorEntryCond (p : SaleProp) : Bool :=
  strContains p.name "颜色" && p.value != "" && optIntTruthy p.propertyValueId

/-- Tail of the scan over `sale_properties` building `size_value_map` and
`color_value_map`, carrying both maps as accumulators (the loop of
lines 305-316). -/
def buildSizeColorMapsAux (sizeMap colorMap : List (ℤ × String)) :
    List SaleProp → List (ℤ × String) × List (ℤ × String)
  | [] => (sizeMap, colorMap)
  | p :: rest =>
      let sizeMap' :=
        if sizeEntryCond p then dictInsert (p.propertyValueId.getD 0) p.value sizeMap
        else sizeMap
      let colorMap' :=
        if colorEntryCond p then dictInsert (p.propertyValueId.getD 0) p.value colorMap
        else colorMap
      buildSizeColorMapsAux sizeMap' colorMap' rest

/-- `size_value_map` and `color_value_map` built from `sale_properties`
(`poizon_api_fixed.py` lines 302-316). -/
def buildSizeColorMaps (saleProperties : List SaleProp) :
    List (ℤ × String) × List (ℤ × String) :=
  buildSizeColorMapsAux [] [] saleProperties

/-- Flat image-list extraction (`poizon_api_fixed.py` lines 329-339): the
`url` fields of `spuImage.images` in order, skipping empty URLs.  The input is
the list of `url` values of that array. -/
def extractImages (imagesList : List String) : List String :=
  imagesList.filter (fun u => u != "")

/-! ## Color-to-image association (`poizon_api_fixed.py` lines 341-391) -/

/-- An element of a `colorBlockImages` list: either a dict with a `url` field
(read via `.get('url', '')` and skipped when empty) or a raw string (appended
unconditionally). -/
inductive ImgItem
  | dict (url : String)
  | str (s : String)
deriving Repr, DecidableEq

/-- The inner URL-collection loop of lines 357-364. -/
def colorUrls (items : List ImgItem) : List String :=
  items.filterMap fun it =>
    match it with
    | ImgItem.dict url => if url = "" then none else some url
    | ImgItem.str s => some s

/-- The explicit per-color grouping branch of lines 349-370: keep each color's
URL list when non-empty. -/
def explicitColorImages (colorBlockImages : List (ℤ × List ImgItem)) :
    List (ℤ × List String) :=
  colorBlockImages.foldl
    (fun m p =>
      let urls := colorUrls p.2
      if urls.isEmpty then m else dictInsert p.1 urls m)
    []

/-- The Python slice `images[idx*ipc : idx*ipc + ipc]` used by the positional
partition (lines 382-384). -/
def sliceAt (images : List String) (ipc idx : ℕ) : List String :=
  (images.drop (idx * ipc)).take ipc

/-- The positional-partition loop of lines 380-388 over the ascending color
ids, carrying the map accumulator: each non-empty slice is assigned to its
color id. -/
def assignColorSlices (images : List String) (ipc : ℕ) :
    ℕ → List ℤ → List (ℤ × List String) → List (ℤ × List String)
  | _, [], m => m
  | idx, cid :: rest, m =>
      assignColorSlices images ipc (idx + 1) rest
        (if (sliceAt images ipc idx).isEmpty then m
         else dictInsert cid (sliceAt images ipc idx) m)

/-- `sorted(color_value_map.keys())` (line 380). -/
def sortedKeys (m : List (ℤ × String)) : List ℤ :=
  List.insertionSort (· ≤ ·) (m.map Prod.fst)

/-- The pure slice-per-color list in loop order, used to describe the result
of `assignColorSlices`. -/
def sliceEntries (images : List String) (ipc : ℕ) :
    ℕ → List ℤ → List (ℤ × List String)
  | _, [] => []
  | idx, cid :: rest =>
      (if (sliceAt images ipc idx).isEmpty then []
       else [(cid, sliceAt images ipc idx)]) ++
        sliceEntries images ipc (idx + 1) rest

/-- `color_images_map` construction (lines 341-391): use the explicit
`colorBlockImages` grouping when present and non-empty, otherwise fall back to
the positional partition of the flat image list (integer division of the image
count by the color count, contiguous slices in ascending `propertyValueId`
order); with no images or no colors the map stays empty. -/
def buildColorImagesMap (colorBlockImages : List (ℤ × List ImgItem))
    (images : List String) (colorValueMap : List (ℤ × String)) :
    List (ℤ × List String) :=
  if !colorBlockImages.isEmpty then
    explicitColorImages colorBlockImages
  else if !images.isEmpty && colorValueMap.length > 0 then
    assignColorSlices images (images.length / colorValueMap.length) 0
      (sortedKeys colorValueMap) []
  else []

/-! ## Variation building (`poizon_api_fixed.py` lines 405-606) -/

/-- The Chinese-to-Russian color dictionary literal of lines 451-562, in
source order.  The Python literal repeats the keys `蓝灰` and `银灰` with
identical values; a dict literal keeps the last occurrence while `List.lookup`
takes the first, which coincides here because the repeated values are equal. -/
def colorTranslations : List (String × String) :=
  [("黑", "Черный"), ("黑色", "Черный"),
   ("白", "Белый"), ("白色", "Белый"),
   ("灰", "Серый"), ("灰色", "Серый"),
   ("红", "Красный"), ("红色", "Красный"),
   ("蓝", "Синий"), ("蓝色", "Синий"),
   ("绿", "Зеленый"), ("绿色", "Зеленый"),
   ("黄", "Желтый"), ("黄色", "Желтый"),
   ("橙", "Оранжевый"), ("橙色", "Оранжевый"),
   ("粉", "Розовый"), ("粉色", "Розовый"),
   ("紫", "Фиолетовый"), ("紫色", "Фиолетовый"),
   ("棕", "Коричневый"), ("棕色", "Коричневый"),
   ("咖啡色", "Коричневый"),
   ("褐色", "Коричневый"),
   ("米色", "Бежевый"),
   ("银色", "Серебристый"),
   ("金色", "Золотой"),
   ("青色", "Бирюзовый"),
   ("青绿", "Бирюзовый"),
   ("青蓝", "Бирюзово-синий"),
   ("湖蓝", "Голубой"),
   ("天蓝", "Небесно-голубой"),
   ("藏蓝", "Темно-синий"),
   ("深蓝", "Темно-синий"),
   ("浅蓝", "Голубой"),
   ("海军蓝", "Темно-синий"),
   ("宝蓝", "Королевский синий"),
   ("蓝灰", "Сине-серый"),
   ("墨绿", "Темно-зеленый"),
   ("军绿", "Хаки"),
   ("卡其", "Хаки"), ("卡其色", "Хаки"),
   ("橄榄绿", "Оливковый"),
   ("草绿", "Травяной зеленый"),
   ("苹果绿", "Яблочно-зеленый"),
   ("嫩绿", "Салатовый"),
   ("薄荷绿", "Мятный"),
   ("枣红", "Бордовый"),
   ("酒红", "Бордовый"),
   ("深红", "Темно-красный"),
   ("浅红", "Светло-красный"),
   ("玫红", "Малиновый"),
   ("粉红", "Розовый"),
   ("浅粉", "Светло-розовый"),
   ("桃红", "Персиковый"),
   ("橘红", "Оранжево-красный"),
   ("柠檬黄", "Желтый"),
   ("姜黄", "Горчичный"),
   ("金黄", "Золотистый"),
   ("奶白", "Молочный белый"),
   ("象牙白", "Слоновая кость"),
   ("米白", "Молочно-белый"),
   ("烟灰", "Дымчато-серый"),
   ("银灰", "Серебристо-серый"),
   ("石墨灰", "Графитовый"),
   ("苍岩灰", "Серый"),
   ("探险棕", "Коричневый"),
   ("桦木", "Бежевый"),
   ("桦木绿", "Зеленый"),
   ("耀夜紫", "Фиолетовый"),
   ("骑士黑", "Черный"),
   ("黑白", "Черно-белый"), ("黑白色", "Черно-белый"),
   ("红白", "Красно-белый"), ("红白色", "Красно-белый"),
   ("蓝白", "Сине-белый"), ("蓝白色", "Сине-белый"),
   ("黑红", "Черно-красный"), ("黑红色", "Черно-красный"),
   ("黑蓝", "Черно-синий"), ("黑蓝色", "Черно-синий"),
   ("黑灰", "Черно-серый"), ("黑灰色", "Черно-серый"),
   ("黑金", "Черно-золотой"), ("黑金色", "Черно-золотой"),
   ("黑银", "Черно-серебристый"), ("黑银色", "Черно-серебристый"),
   ("红黑", "Красно-черный"), ("红黑色", "Красно-черный"),
   ("红蓝", "Красно-синий"), ("红蓝色", "Красно-синий"),
   ("红黄", "Красно-желтый"), ("红黄色", "Красно-желтый"),
   ("红绿", "Красно-зеленый"), ("红绿色", "Красно-зеленый"),
   ("蓝黑", "Сине-черный"), ("蓝黑色", "Сине-черный"),
   ("蓝灰", "Сине-серый"), ("蓝灰色", "Сине-серый"),
   ("蓝绿", "Сине-зеленый"), ("蓝绿色", "Сине-зеленый"),
   ("蓝金", "Сине-золотой"), ("蓝金色", "Сине-золотой"),
   ("蓝银", "Сине-серебристый"), ("蓝银色", "Сине-серебристый"),
   ("白金", "Белый с золотом"), ("白金色", "Белый с золотом"),
   ("白银", "Белый с серебром"), ("白银色", "Белый с серебром"),
   ("灰白", "Серо-белый"), ("灰白色", "Серо-белый"),
   ("灰蓝", "Серо-синий"), ("灰蓝色", "Серо-синий"),
   ("灰黑", "Серо-черный"), ("灰黑色", "Серо-черный"),
   ("棕白", "Коричнево-белый"), ("棕白色", "Коричнево-белый"),
   ("棕黑", "Коричнево-черный"), ("棕黑色", "Коричнево-черный"),
   ("粉白", "Розово-белый"), ("粉白色", "Розово-белый"),
   ("粉蓝", "Розово-голубой"), ("粉蓝色", "Розово-голубой"),
   ("粉紫", "Розово-фиолетовый"), ("粉紫色", "Розово-фиолетовый"),
   ("紫白", "Фиолетово-белый"), ("紫白色", "Фиолетово-белый"),
   ("紫黑", "Фиолетово-черный"), ("紫黑色", "Фиолетово-черный"),
   ("紫蓝", "Фиолетово-синий"), ("紫蓝色", "Фиолетово-синий"),
   ("金黑", "Золотисто-черный"), ("金黑色", "Золотисто-черный"),
   ("金白", "Золотисто-белый"), ("金白色", "Золотисто-белый"),
   ("金银", "Золото-серебристый"), ("金银色", "Золото-серебристый"),
   ("绿白", "Зелено-белый"), ("绿白色", "Зелено-белый"),
   ("绿黑", "Зелено-черный"), ("绿黑色", "Зелено-черный"),
   ("绿蓝", "Зелено-синий"), ("绿蓝色", "Зелено-синий"),
   ("黄黑", "Желто-черный"), ("黄黑色", "Желто-черный"),
   ("黄白", "Желто-белый"), ("黄白色", "Желто-белый"),
   ("黄蓝", "Желто-синий"), ("黄蓝色", "Желто-синий"),
   ("黄绿", "Желто-зеленый"), ("黄绿色", "Желто-зеленый"),
   ("银黑", "Серебристо-черный"), ("银黑色", "Серебристо-черный"),
   ("银白", "Серебристо-белый"), ("银白色", "Серебристо-белый"),
   ("银蓝", "Серебристо-синий"), ("银蓝色", "Серебристо-синий"),
   ("银灰", "Серебристо-серый"), ("银灰色", "Серебристо-серый"),
   ("彩色", "Разноцветный"),
   ("多色", "Многоцветный"),
   ("撞色", "Контрастный цвет"),
   ("渐变色", "Градиентный цвет")]

/-- The lookup loop of lines 413-415: first entry of `skus_array` whose
stringified `skuId` equals the price key, together with its index (the `break`
keeps only the first match). -/
def findSku (skuIdStr : String) : ℕ → List SkuItem → Option (ℕ × SkuItem)
  | _, [] => none
  | idx, item :: rest =>
      if item.skuId == skuIdStr then some (idx, item)
      else findSku skuIdStr (idx + 1) rest

/-- The property-classification loop of lines 424-433: membership in
`size_value_map` is tested first, `elif` in `color_value_map`; a later hit
overwrites an earlier one.  A missing `propertyValueId` (`None`) is a key of
neither dict. -/
def classifyProps (sizeMap colorMap : List (ℤ × String)) (props : List SkuProp) :
    Option String × Option String :=
  props.foldl
    (fun sc p =>
      match p.propertyValueId with
      | none => sc
      | some pv =>
          match List.lookup pv sizeMap with
          | some s => (some s, sc.2)
          | none =>
              match List.lookup pv colorMap with
              | some c => (sc.1, some c)
              | none => sc)
    (none, none)

/-- The color-property search of lines 571-575: the first property reference
whose `propertyValueId` is a key of `color_value_map` (with `break`). -/
def firstColorKey (colorMap : List (ℤ × String)) : List SkuProp → Option ℤ
  | [] => none
  | p :: rest =>
      match p.propertyValueId with
      | some pv =>
          if (List.lookup pv colorMap).isSome then some pv
          else firstColorKey colorMap rest
      | none => firstColorKey colorMap rest

/-- The loop-carried state of the variation loop.  In the Python source,
`color` and `properties` are function-local variables assigned only inside the
matched-SKU branch (lines 416-422); on an iteration whose SKU has no match in
`skus_array` they retain the values from the last matched iteration — or are
still unbound if no iteration has matched yet.  `none` models the
never-assigned (unbound) state; reading it raises `UnboundLocalError` at
line 564, modelled as `Except.error`. -/
def VarLoopState := Option (Option String × List SkuProp)

/-- The size resolution of lines 411-443 for one priced SKU, together with
the loop-state update: on a match, classify the SKU's property references and
apply the positional `saleProperties` fallback of lines 436-441 when no size
resolved; with no match, the size stays unresolved and the state is carried
over unchanged. -/
def resolveSizeAndState (sizeMap colorMap : List (ℤ × String))
    (saleProperties : List SaleProp) (skusArray : List SkuItem)
    (state : VarLoopState) (skuIdStr : String) :
    Option String × VarLoopState :=
  match findSku skuIdStr 0 skusArray with
  | none => (none, state)
  | some (idx, skuItem) =>
      ((if optStrTruthy (classifyProps sizeMap colorMap skuItem.properties).1
        then (classifyProps sizeMap colorMap skuItem.properties).1
        else
          match (saleProperties.filter fun p =>
              strContains p.name "尺码").get? idx with
          | some sp => some sp.value
          | none => (classifyProps sizeMap colorMap skuItem.properties).1),
       some ((classifyProps sizeMap colorMap skuItem.properties).2,
         skuItem.properties))

/-- The raw-SKU-id size fallback of lines 446-448: an unresolved, empty or
literal `'None'` size is replaced by the SKU id string. -/
def sizeFallback (skuIdStr : String) : Option String → String
  | none => skuIdStr
  | some s => if s = "" || s = "None" then skuIdStr else s

/-- The color translation of line 564: a falsy `color` gives `None`, else the
dictionary value with the original as default. -/
def translateColor (color : Option String) : Option String :=
  if optStrTruthy color then
    some ((List.lookup (color.getD "") colorTranslations).getD (color.getD ""))
  else none

/-- The color-specific image selection of lines 568-581: find the first color
`propertyValueId` among the (possibly stale) property references, and take its
entry of `color_images_map` when the id is truthy and present. -/
def colorImagesFor (colorMap : List (ℤ × String))
    (colorImagesMap : List (ℤ × List String)) (color : Option String)
    (props : List SkuProp) : List String :=
  match (if optStrTruthy color then firstColorKey colorMap props else none) with
  | some pv =>
      if pv != 0 then (List.lookup pv colorImagesMap).getD [] else []
  | none => []

/-- One iteration of the variation loop of lines 408-606 for a single priced
SKU: resolve size via the property maps, the positional `saleProperties`
fallback (lines 436-441), then the raw SKU-id fallback (lines 446-448);
translate the color (line 564); attach color-specific images (lines 568-581);
apply the minor-unit price heuristic (lines 586-589); assemble the variation
dict (lines 591-604).  Reading the unbound `color` with no prior matched
iteration (line 564) is the `Except.error` case. -/
def buildVariationStep (sizeMap colorMap : List (ℤ × String))
    (saleProperties : List SaleProp) (skusArray : List SkuItem)
    (colorImagesMap : List (ℤ × List String)) (state : VarLoopState)
    (skuIdStr : String) (priceData : PriceEntry) :
    Except Unit (Variation × VarLoopState) :=
  match resolveSizeAndState sizeMap colorMap saleProperties skusArray state
      skuIdStr with
  | (_, none) => Except.error ()
  | (size, some (color, props)) =>
      Except.ok
        ({ sku_id := skuIdStr
           size := sizeFallback skuIdStr size
           price := effectivePrice priceData.price
           stock := priceData.stock
           color := if optStrTruthy (translateColor color)
             then translateColor color else none
           images := if (colorImagesFor colorMap colorImagesMap color
               props).isEmpty then none
             else some (colorImagesFor colorMap colorImagesMap color props) },
         some (color, props))

/-- The variation loop of lines 406-606 over the priced-SKU mapping in
insertion order, threading the loop-carried state. -/
def buildVariationsGo (sizeMap colorMap : List (ℤ × String))
    (saleProperties : List SaleProp) (skusArray : List SkuItem)
    (colorImagesMap : List (ℤ × List String)) (state : VarLoopState) :
    List (String × PriceEntry) → Except Unit (List Variation)
  | [] => Except.ok []
  | (skuIdStr, priceData) :: rest =>
      match buildVariationStep sizeMap colorMap saleProperties skusArray
          colorImagesMap state skuIdStr priceData with
      | Except.error e => Except.error e
      | Except.ok (v, state') =>
          match buildVariationsGo sizeMap colorMap saleProperties skusArray
              colorImagesMap state' rest with
          | Except.error e => Except.error e
          | Except.ok vs => Except.ok (v :: vs)

/-- The full variation list built by `get_product_full_info` from the priced
SKUs; `Except.error` is the caught exception path (the function then returns
`None`, so no variations are emitted at all). -/
def buildVariations (sizeMap colorMap : List (ℤ × String))
    (saleProperties : List SaleProp) (skusArray : List SkuItem)
    (colorImagesMap : List (ℤ × List String))
    (prices : List (String × PriceEntry)) : Except Unit (List Variation) :=
  buildVariationsGo sizeMap colorMap saleProperties skusArray colorImagesMap
    none prices

/-- The variation-relevant pipeline of `get_product_full_info`
(`poizon_api_fixed.py` lines 299-606): build the size/color maps, the flat
image list and the color-image map, then the variation list. -/
def getProductVariations (saleProperties : List SaleProp)
    (rawImages : List String) (colorBlockImages : List (ℤ × List ImgItem))
    (skusArray : List SkuItem) (prices : List (String × PriceEntry)) :
    Except Unit (List Variation) :=
  let maps := buildSizeColorMaps saleProperties
  let images := extractImages rawImages
  let colorImagesMap := buildColorImagesMap colorBlockImages images maps.2
  buildVariations maps.1 maps.2 saleProperties skusArray colorImagesMap prices

/-! ## WooCommerce side (`poizon_to_wordpress_service.py`, `web_app.py`) -/

/-- `unique_colors` of `create_product` (line 783):
`list(set([v['color'] for v in product.variations if 'color' in v]))`.
The Python set has arbitrary order; only membership and cardinality are used
downstream, so the distinct colors are modelled as `dedup` of the extraction
order. -/
def uniqueColors (variations : List Variation) : List String :=
  (variations.filterMap Variation.color).dedup

/-- `use_color_attribute` of `create_product` (line 788): the color axis is
used only when more than one distinct color exists. -/
def useColorAttribute (variations : List Variation) : Bool :=
  (uniqueColors variations).length > 1

/-- A variation attribute as sent in a variation-creation payload.  The source
sends either a global-attribute id or a local name together with the option
value; the id-versus-name choice depends only on the attribute cache, so the
attribute is modelled by its name and option value. -/
structure VarAttr where
  name : String
  option : String
deriving Repr, DecidableEq

/-- The variation-attribute assembly of `_create_variations`
(lines 1010-1035): the color attribute is attached only when
`use_color_attribute` holds and the variation carries a truthy color; the size
attribute is always attached. -/
def variationAttributes (useColor : Bool) (v : Variation) : List VarAttr :=
  let colorAttrs :=
    if useColor && optStrTruthy v.color then
      [⟨"Цвет", v.color.getD ""⟩]
    else []
  colorAttrs ++ [⟨"Размер", v.size⟩]

/-- A product-metadata entry in a destination payload. -/
structure WcMeta where
  key : String
  value : String
deriving Repr, DecidableEq

/-- A destination (WooCommerce) parent product as far as the lookup paths
observe it: numeric id, SKU string and metadata entries. -/
structure WcProduct where
  id : ℤ
  sku : String
  meta_data : List WcMeta
deriving Repr, DecidableEq

/-- `WooCommerceService.product_exists` (lines 521-545): the destination is
queried for products with exactly the given SKU and the first match's id is
returned.  The REST sink is modelled as the list of stored products. -/
def productExists (store : List WcProduct) (sku : String) : Option ℤ :=
  match store.filter (fun p => p.sku == sku) with
  | [] => none
  | p :: _ => some p.id

/-- The existence check performed per candidate by `sync_all_products`
(line 1474): `product_exists(product.sku)` — a pure SKU-string lookup against
the destination store. -/
def syncExistenceCheck (store : List WcProduct) (productSku : String) :
    Option ℤ :=
  productExists store productSku

/-- The `meta_data` assembled by `create_product` (lines 690-696): the
upstream numeric id is always stored under `_poizon_spu_id`; the Yoast entries
are appended only when present and truthy. -/
def createProductMeta (spuId : ℤ) (metaDescription keywords : String) :
    List WcMeta :=
  [⟨"_poizon_spu_id", toString spuId⟩]
    ++ (if metaDescription ≠ "" then [⟨"_yoast_wpseo_metadesc", metaDescription⟩] else [])
    ++ (if keywords ≠ "" then [⟨"_yoast_wpseo_focuskw", keywords⟩] else [])

/-- Decimal digit value of a character, `none` for a non-digit. -/
def digitVal (c : Char) : Option ℕ :=
  if 48 ≤ c.toNat ∧ c.toNat ≤ 57 then some (c.toNat - 48) else none

/-- Accumulating decimal parse of a digit sequence; `none` on any
non-digit. -/
def parseNatAux : ℕ → List Char → Option ℕ
  | acc, [] => some acc
  | acc, c :: rest =>
      match digitVal c with
      | some d => parseNatAux (acc * 10 + d) rest
      | none => none

/-- Python `int()` applied to a decimal string (an optional sign followed by
digits); `none` models the `ValueError` raised on any other shape. -/
def pyIntParse (s : String) : Option ℤ :=
  match s.data with
  | [] => none
  | c :: rest =>
      if c = '-' then
        if rest.isEmpty then none
        else (parseNatAux 0 rest).map fun n => -(n : ℤ)
      else (parseNatAux 0 (c :: rest)).map fun n => (n : ℤ)

/-- The metadata scan of the price-update path (`web_app.py` lines 1925-1931):
the first `_poizon_spu_id` entry, its value parsed as an integer. -/
def findMetaSpuId : List WcMeta → Option ℤ
  | [] => none
  | m :: rest =>
      if m.key == "_poizon_spu_id" then pyIntParse m.value
      else findMetaSpuId rest

/-- The upstream-id resolution of the price-update path (`web_app.py`
lines 1924-1967): prefer the stored `_poizon_spu_id` metadata when truthy;
otherwise fall back to a keyword search by the product's SKU (first hit), and
fail when the SKU is empty or the search returns nothing. -/
def resolveSpuId (meta : List WcMeta) (sku : String)
    (searchOracle : String → List ℤ) : Option ℤ :=
  let fromMeta := findMetaSpuId meta
  if optIntTruthy fromMeta then fromMeta
  else if sku = "" then none
  else
    match searchOracle sku with
    | [] => none
    | s :: _ => some s

/-! ## Sync orchestration (`poizon_to_wordpress_service.py` lines 1427-1509) -/

/-- Per-candidate outcome recorded by `sync_all_products`. -/
inductive Outcome
  | created
  | updated
  | skipped
  | error
deriving Repr, DecidableEq

/-- The collaborator responses observed while processing one candidate.  Each
call site sits inside the per-candidate `try`, so any of them may also raise
(`Except.error`); `get_product_full_info` returning `None` and `create_product`
returning `None` are the explicit failure returns. -/
structure CandidateRun where
  spuId : Option ℤ
  fetchResult : Except Unit (Option String)
  existsResult : Except Unit (Option ℤ)
  updateResult : Except Unit ℤ
  createResult : Except Unit (Option ℤ)
deriving Repr

/-- The per-candidate body of `sync_all_products` (lines 1454-1498): a falsy
`spuId` is skipped; a failed or empty fetch is an error; an existing product
is updated (or skipped when `update_existing` is off); otherwise creation is
attempted; any exception inside the `try` is caught and recorded as an
error. -/
def processCandidate (updateExisting : Bool) (c : CandidateRun) : Outcome :=
  match c.spuId with
  | none => Outcome.skipped
  | some s =>
      if s = 0 then Outcome.skipped
      else
        match c.fetchResult with
        | Except.error _ => Outcome.error
        | Except.ok none => Outcome.error
        | Except.ok (some _) =>
            match c.existsResult with
            | Except.error _ => Outcome.error
            | Except.ok (some _) =>
                if updateExisting then
                  match c.updateResult with
                  | Except.error _ => Outcome.error
                  | Except.ok _ => Outcome.updated
                else Outcome.skipped
            | Except.ok none =>
                match c.createResult with
                | Except.error _ => Outcome.error
                | Except.ok (some _) => Outcome.created
                | Except.ok none => Outcome.error

/-- The four outcome counters of `sync_all_products`. -/
structure SyncTally where
  created : ℕ
  updated : ℕ
  skipped : ℕ
  error : ℕ
deriving Repr, DecidableEq

/-- Increment the counter selected by an outcome. -/
def bumpTally (t : SyncTally) : Outcome → SyncTally
  | Outcome.created => { t with created := t.created + 1 }
  | Outcome.updated => { t with updated := t.updated + 1 }
  | Outcome.skipped => { t with skipped := t.skipped + 1 }
  | Outcome.error => { t with error := t.error + 1 }

/-- The candidate loop of `sync_all_products` (lines 1449-1508): process each
candidate in order, bumping exactly one counter per candidate, and emit the
final tally. -/
def syncAllProducts (updateExisting : Bool) (cs : List CandidateRun) :
    SyncTally :=
  cs.foldl (fun t c => bumpTally t (processCandidate updateExisting c))
    ⟨0, 0, 0, 0⟩

/-! ## Rounding lemmas -/

theorem pyRound_le_floor_add_one (q : ℚ) : pyRound q ≤ ⌊q⌋ + 1 := by
  unfold pyRound
  split
  · omega
  · split
    · omega
    · split <;> omega

theorem floor_le_pyRound (q : ℚ) : ⌊q⌋ ≤ pyRound q := by
  unfold pyRound
  split
  · omega
  · split
    · omega
    · split <;> omega

theorem pyInt_of_nonneg (q : ℚ) (h : 0 ≤ q) : pyInt q = ⌊q⌋ := by
  unfold pyInt
  simp [h]

/-! ## Association-list lemmas -/

theorem lookup_append {α : Type} (k : ℤ) (l₁ l₂ : List (ℤ × α)) :
    List.lookup k (l₁ ++ l₂)
      = match List.lookup k l₁ with
        | some v => some v
        | none => List.lookup k l₂ := by
  induction l₁ with
  | nil => simp [List.lookup]
  | cons hd tl ih =>
      by_cases h : k == hd.1
      · simp [List.lookup, h]
      · simp [List.lookup, h, ih]

theorem lookup_dictInsert_isSome {α : Type} (k k' : ℤ) (v : α)
    (m : List (ℤ × α)) :
    (List.lookup k (dictInsert k' v m)).isSome
      ↔ k = k' ∨ (List.lookup k m).isSome := by
  induction m with
  | nil =>
      simp only [dictInsert, List.lookup]
      by_cases h : k = k'
      · simp [h]
      · simp [h, beq_false_of_ne h]
  | cons hd tl ih =>
      simp only [dictInsert]
      by_cases h1 : hd.1 = k'
      · subst h1
        by_cases h2 : k = hd.1
        · subst h2; simp [List.lookup]
        · simp [List.lookup, beq_false_of_ne h2, h2]
      · rw [if_neg h1]
        by_cases h2 : k = hd.1
        · subst h2; simp [List.lookup]
        · simp [List.lookup, beq_false_of_ne h2, ih]

theorem dictInsert_fresh {α : Type} (k : ℤ) (v : α) (m : List (ℤ × α))
    (h : List.lookup k m = none) : dictInsert k v m = m ++ [(k, v)] := by
  induction m with
  | nil => simp [dictInsert]
  | cons hd tl ih =>
      simp only [List.lookup] at h
      by_cases h2 : k == hd.1
      · simp [h2] at h
      · simp only [h2] at h
        have hne : hd.1 ≠ k := fun he => by simp [he] at h2
        simp [dictInsert, hne, ih h]

/-! ## C3: size/color key classification -/

/-- Any key of the size map produced by the scan comes from a size-marked
entry (or was already a key of the accumulator). -/
theorem sizeMap_key_source (sp : List SaleProp) :
    ∀ (sm cm : List (ℤ × String)) (k : ℤ),
      (List.lookup k (buildSizeColorMapsAux sm cm sp).1).isSome →
      (List.lookup k sm).isSome ∨
        ∃ p ∈ sp, sizeEntryCond p = true ∧ p.propertyValueId.getD 0 = k := by
  induction sp with
  | nil => intro sm cm k h; exact Or.inl h
  | cons hd tl ih =>
      intro sm cm k h
      simp only [buildSizeColorMapsAux] at h
      rcases ih _ _ k h with h' | ⟨p, hp, hc, hk⟩
      · by_cases hcond : sizeEntryCond hd
        · rw [if_pos hcond] at h'
          rcases (lookup_dictInsert_isSome k _ _ sm).mp h' with he | hsm
          · exact Or.inr ⟨hd, List.mem_cons_self .., hcond, he.symm⟩
          · exact Or.inl hsm
        · rw [if_neg hcond] at h'
          exact Or.inl h'
      · exact Or.inr ⟨p, List.mem_cons_of_mem _ hp, hc, hk⟩

/-- Any key of the color map produced by the scan comes from a color-marked
entry (or was already a key of the accumulator). -/
theorem colorMap_key_source (sp : List SaleProp) :
    ∀ (sm cm : List (ℤ × String)) (k : ℤ),
      (List.lookup k (buildSizeColorMapsAux sm cm sp).2).isSome →
      (List.lookup k cm).isSome ∨
        ∃ p ∈ sp, colorEntryCond p = true ∧ p.propertyValueId.getD 0 = k := by
  induction sp with
  | nil => intro sm cm k h; exact Or.inl h
  | cons hd tl ih =>
      intro sm cm k h
      simp only [buildSizeColorMapsAux] at h
      rcases ih _ _ k h with h' | ⟨p, hp, hc, hk⟩
      · by_cases hcond : colorEntryCond hd
        · rw [if_pos hcond] at h'
          rcases (lookup_dictInsert_isSome k _ _ cm).mp h' with he | hcm
          · exact Or.inr ⟨hd, List.mem_cons_self .., hcond, he.symm⟩
          · exact Or.inl hcm
        · rw [if_neg hcond] at h'
          exact Or.inl h'
      · exact Or.inr ⟨p, List.mem_cons_of_mem _ hp, hc, hk⟩

/-- C3 (counterexample): the two marker tests are independent `if`s, so a
sale-property entry whose name contains both the size marker `尺码` and the
color marker `颜色` is entered into BOTH maps — its `propertyValueId` (here 7)
is a key of the size map and of the color map, and it is not classified as
size-only.  This refutes both the key-disjointness and the size-precedence
part of the claim. -/
theorem both_marker_entry_lands_in_both_maps :
    buildSizeColorMaps [⟨"尺码颜色", "37", some 7⟩] = ([(7, "37")], [(7, "37")]) ∧
    (List.lookup 7 (buildSizeColorMaps [⟨"尺码颜色", "37", some 7⟩]).1).isSome = true ∧
    (List.lookup 7 (buildSizeColorMaps [⟨"尺码颜色", "37", some 7⟩]).2).isSome = true := by
  exact ⟨rfl, rfl, rfl⟩

/-- C3 (amended): the maps are disjoint on keys provided no size-marked entry
and color-marked entry of the sale-properties list share a `propertyValueId`
(in particular, provided no single entry's name contains both markers); there
is no size-precedence rule in the code. -/
theorem size_color_maps_disjoint_without_shared_ids (sp : List SaleProp)
    (h : ∀ p ∈ sp, ∀ q ∈ sp, sizeEntryCond p = true → colorEntryCond q = true →
      p.propertyValueId.getD 0 ≠ q.propertyValueId.getD 0) :
    ∀ k : ℤ, ¬((List.lookup k (buildSizeColorMaps sp).1).isSome ∧
      (List.lookup k (buildSizeColorMaps sp).2).isSome) := by
  intro k ⟨hs, hc⟩
  rcases sizeMap_key_source sp [] [] k hs with h' | ⟨p, hp, hpc, hpk⟩
  · simp [List.lookup] at h'
  · rcases colorMap_key_source sp [] [] k hc with h' | ⟨q, hq, hqc, hqk⟩
    · simp [List.lookup] at h'
    · exact h p hp q hq hpc hqc (hpk.trans hqk.symm)

/-- C3 (witness): a disjoint instance — one size-marked and one color-marked
entry with distinct ids — where no id is a key of both maps. -/
theorem size_color_maps_disjoint_without_shared_ids_witness :
    (∀ p ∈ [(⟨"尺码", "42", some 1⟩ : SaleProp), ⟨"颜色", "黑", some 2⟩],
      ∀ q ∈ [(⟨"尺码", "42", some 1⟩ : SaleProp), ⟨"颜色", "黑", some 2⟩],
      sizeEntryCond p = true → colorEntryCond q = true →
      p.propertyValueId.getD 0 ≠ q.propertyValueId.getD 0) ∧
    ¬((List.lookup 1 (buildSizeColorMaps
        [⟨"尺码", "42", some 1⟩, ⟨"颜色", "黑", some 2⟩]).1).isSome ∧
      (List.lookup 1 (buildSizeColorMaps
        [⟨"尺码", "42", some 1⟩, ⟨"颜色", "黑", some 2⟩]).2).isSome) :=
  ⟨by decide, size_color_maps_disjoint_without_shared_ids
    [⟨"尺码", "42", some 1⟩, ⟨"颜色", "黑", some 2⟩] (by decide) 1⟩

/-- C1 (code bug): `color` and `properties` are assigned only inside the
matched-SKU branch of the variation loop, so when the first priced SKU has no
matching entry in `skus_array` the loop reads the unbound local `color` at
line 564 (`color_translations.get(color, color) if color else None`) and
raises `UnboundLocalError`; the exception is caught by the enclosing handler
and `get_product_full_info` returns `None`.  For the priced SKU `1001` with a
`skus_array` holding only SKU `2002`, zero variations are emitted instead of
the one variation with size `"1001"` promised by the raw-SKU-id fallback the
code itself announces at lines 445-448. -/
theorem variation_loop_unbound_color_on_first_unmatched_sku :
    getProductVariations [] [] [] [⟨"2002", []⟩] [("1001", ⟨100, 1⟩)]
      = Except.error () := rfl

/-- C2 (counterexample): a single-color product — one priced SKU whose color
resolves to `Черный` — still carries the `color` field on its emitted
variation although the distinct-color count is 1; no global post-pass strips
the color axis from the variant list. -/
theorem single_color_variant_keeps_color_field :
    getProductVariations
        [⟨"尺码", "42", some 1⟩, ⟨"颜色", "黑", some 2⟩] [] []
        [⟨"10", [⟨some 1⟩, ⟨some 2⟩]⟩] [("10", ⟨9900, 5⟩)]
      = Except.ok [⟨"10", "42", 9900, 5, some "Черный", none⟩] ∧
    (uniqueColors [⟨"10", "42", 9900, 5, some "Черный", none⟩]).length ≤ 1 ∧
    (⟨"10", "42", 9900, 5, some "Черный", none⟩ : Variation).color ≠ none := by
  refine ⟨rfl, by decide, by decide⟩

/-- C2 (amended): the single-color collapse happens only at write time: when
the distinct-color count over the variant list is at most 1,
`create_product` sets `use_color_attribute` to false and every
variation-creation payload carries no `Цвет` attribute — while the variant
records themselves may keep their `color` field. -/
theorem color_axis_suppressed_only_at_write_time (vs : List Variation)
    (h : (uniqueColors vs).length ≤ 1) :
    useColorAttribute vs = false ∧
    ∀ v ∈ vs, ∀ a ∈ variationAttributes (useColorAttribute vs) v,
      a.name ≠ "Цвет" := by
  have hu : useColorAttribute vs = false := by
    simp only [useColorAttribute, decide_eq_false_iff_not, gt_iff_lt, not_lt]
    exact h
  refine ⟨hu, ?_⟩
  intro v _ a ha
  rw [hu] at ha
  simp [variationAttributes] at ha
  subst ha
  show "Размер" ≠ "Цвет"
  decide

/-- C2 (amended, witness): the single-color variant above — the write payload
for it has no color attribute. -/
theorem color_axis_suppressed_only_at_write_time_witness :
    (uniqueColors [⟨"10", "42", 9900, 5, some "Черный", none⟩]).length ≤ 1 ∧
    useColorAttribute [⟨"10", "42", 9900, 5, some "Черный", none⟩] = false :=
  ⟨by decide,
    (color_axis_suppressed_only_at_write_time
      [⟨"10", "42", 9900, 5, some "Черный", none⟩] (by decide)).1⟩

/-- C4: `apply_price_transformation` returns `round(price * rate)` when the
markup is 0 and `round(price * rate + markup)` when it is positive (Python
`round`, i.e. half-to-even, returning an integer); in particular a 100-yuan
price at rate 13.5 gives 1350 rubles with no markup and 1850 with a 500-ruble
markup. -/
theorem apply_price_transformation_spec (p r m : ℚ) (hp : 0 ≤ p) (hm : 0 ≤ m) :
    (m = 0 → applyPriceTransformation r m p = pyRound (p * r)) ∧
    (0 < m → applyPriceTransformation r m p = pyRound (p * r + m)) ∧
    applyPriceTransformation (27/2) 0 100 = 1350 ∧
    applyPriceTransformation (27/2) 500 100 = 1850 := by
  refine ⟨?_, ?_, ?_, ?_⟩
  · intro h0
    simp [applyPriceTransformation, h0]
  · intro hpos
    simp [applyPriceTransformation, hpos]
  · norm_num [applyPriceTransformation, pyRound]
  · norm_num [applyPriceTransformation, pyRound]

/-- C4 (witness): the theorem instantiated at price 100, rate 13.5,
markup 0. -/
theorem apply_price_transformation_spec_witness :
    (0:ℚ) ≤ 100 ∧ (0:ℚ) ≤ 0 ∧
    applyPriceTransformation (27/2) 0 100 = pyRound (100 * (27/2)) :=
  ⟨by norm_num, le_refl 0,
    (apply_price_transformation_spec 100 (27/2) 0 (by norm_num) (le_refl 0)).1 rfl⟩

/-- C5: the minor-unit heuristic divides by 100 exactly when the raw price
strictly exceeds 10000 and leaves it unchanged otherwise; 15000 becomes 150,
5000 stays 5000 and the boundary 10000 itself stays 10000. -/
theorem minor_unit_heuristic_spec (q : ℚ) :
    (10000 < q → effectivePrice q = q / 100) ∧
    (q ≤ 10000 → effectivePrice q = q) ∧
    effectivePrice 15000 = 150 ∧
    effectivePrice 5000 = 5000 ∧
    effectivePrice 10000 = 10000 := by
  refine ⟨?_, ?_, ?_, ?_, ?_⟩
  · intro h
    simp [effectivePrice, h]
  · intro h
    simp [effectivePrice, not_lt.mpr h]
  · norm_num [effectivePrice]
  · norm_num [effectivePrice]
  · norm_num [effectivePrice]

/-- C5 (witness): the theorem instantiated at 15000 (above the threshold) and
at the exclusive boundary 10000. -/
theorem minor_unit_heuristic_spec_witness :
    ((10000:ℚ) < 15000 ∧ effectivePrice 15000 = 15000 / 100) ∧
    ((10000:ℚ) ≤ 10000 ∧ effectivePrice 10000 = 10000) :=
  ⟨⟨by norm_num, (minor_unit_heuristic_spec 15000).1 (by norm_num)⟩,
   ⟨le_refl _, (minor_unit_heuristic_spec 10000).2.1 (le_refl _)⟩⟩

/-- C9 (counterexample): the fast price-update path truncates
(`int(p * r + m)`) while `apply_price_transformation` rounds to nearest: at
source price 1, rate 13.5 and markup 0 the former yields 13 and the latter 14,
so the two computations are not equivalent. -/
theorem fast_price_truncates_differs_from_round :
    fastFinalPrice (27/2) 0 1 = 13 ∧
    applyPriceTransformation (27/2) 0 1 = 14 ∧
    fastFinalPrice (27/2) 0 1 ≠ applyPriceTransformation (27/2) 0 1 := by
  refine ⟨?_, ?_, ?_⟩
  · norm_num [fastFinalPrice, pyInt]
  · norm_num [applyPriceTransformation, pyRound]
  · norm_num [fastFinalPrice, pyInt, applyPriceTransformation, pyRound]

/-- C9 (amended): for non-negative price and markup and positive rate, the
fast path computes the floor of `p * r + m` while
`apply_price_transformation` rounds the same quantity to the nearest integer,
so the fast price never exceeds the full-path price and differs from it by at
most 1. -/
theorem fast_price_floor_vs_round_bound (p r m : ℚ)
    (hp : 0 ≤ p) (hr : 0 < r) (hm : 0 ≤ m) :
    fastFinalPrice r m p = ⌊p * r + m⌋ ∧
    applyPriceTransformation r m p = pyRound (p * r + m) ∧
    fastFinalPrice r m p ≤ applyPriceTransformation r m p ∧
    applyPriceTransformation r m p ≤ fastFinalPrice r m p + 1 := by
  have hnn : 0 ≤ p * r + m := by positivity
  have h1 : fastFinalPrice r m p = ⌊p * r + m⌋ := by
    simp only [fastFinalPrice]
    exact pyInt_of_nonneg _ hnn
  have h2 : applyPriceTransformation r m p = pyRound (p * r + m) := by
    rcases eq_or_lt_of_le hm with he | hpos
    · simp [applyPriceTransformation, ← he]
    · simp [applyPriceTransformation, hpos]
  refine ⟨h1, h2, ?_, ?_⟩
  · rw [h1, h2]
    exact floor_le_pyRound _
  · rw [h1, h2]
    exact pyRound_le_floor_add_one _

/-- C9 (amended, witness): the bound instantiated at the counterexample point
(price 1, rate 13.5, markup 0): 13 ≤ 14 ≤ 13 + 1. -/
theorem fast_price_floor_vs_round_bound_witness :
    (0:ℚ) ≤ 1 ∧ (0:ℚ) < 27/2 ∧ (0:ℚ) ≤ 0 ∧
    fastFinalPrice (27/2) 0 1 ≤ applyPriceTransformation (27/2) 0 1 ∧
    applyPriceTransformation (27/2) 0 1 ≤ fastFinalPrice (27/2) 0 1 + 1 :=
  ⟨by norm_num, by norm_num, le_refl 0,
    (fast_price_floor_vs_round_bound 1 (27/2) 0 (by norm_num) (by norm_num)
      (le_refl 0)).2.2.1,
    (fast_price_floor_vs_round_bound 1 (27/2) 0 (by norm_num) (by norm_num)
      (le_refl 0)).2.2.2⟩

/-! ## C6: join keys between runs -/

/-- The SKU lookup reads only the `id` and `sku` fields of the stored
products: replacing every product's metadata arbitrarily does not change its
result. -/
theorem productExists_meta_invariant (sku : String)
    (f : WcProduct → List WcMeta) (store : List WcProduct) :
    productExists (store.map fun p => ⟨p.id, p.sku, f p⟩) sku
      = productExists store sku := by
  induction store with
  | nil => rfl
  | cons hd tl ih =>
      by_cases h : hd.sku == sku
      · simp [productExists, List.filter, h]
      · simpa [productExists, List.filter, h] using ih

/-- C6 (counterexample): the existence check of `sync_all_products` is
`product_exists(product.sku)`, a pure SKU-string lookup — it does not consult
the `_poizon_spu_id` metadata.  A store holding a parent product whose
metadata records upstream id 555 but whose SKU differs is missed by the check
for SKU `"555"` (the stringified upstream id), although the metadata scan of
the price-update path resolves that same product to 555. -/
theorem existence_check_ignores_spu_metadata :
    syncExistenceCheck [⟨42, "OTHER-SKU", [⟨"_poizon_spu_id", "555"⟩]⟩] "555"
      = none ∧
    findMetaSpuId [⟨"_poizon_spu_id", "555"⟩] = some 555 :=
  ⟨rfl, rfl⟩

/-- C6 (amended): between runs the code uses two different join keys.  The
sync-run existence check is the SKU-string lookup and is invariant under any
change of stored metadata (so the metadata is not its join key);
`create_product` does persist the upstream id under `_poizon_spu_id`; and it
is the separate price-update path that prefers this metadata — whenever the
scan finds a truthy stored id, the resolution returns it unchanged for every
possible keyword-search oracle. -/
theorem sku_lookup_and_meta_preference_split (sku : String)
    (f : WcProduct → List WcMeta) (store : List WcProduct) (spuId n : ℤ)
    (metaDescription keywords : String) (meta : List WcMeta)
    (oracle : String → List ℤ)
    (h1 : findMetaSpuId meta = some n) (h2 : n ≠ 0) :
    syncExistenceCheck (store.map fun p => ⟨p.id, p.sku, f p⟩) sku
      = syncExistenceCheck store sku ∧
    (⟨"_poizon_spu_id", toString spuId⟩ : WcMeta)
      ∈ createProductMeta spuId metaDescription keywords ∧
    resolveSpuId meta sku oracle = some n := by
  refine ⟨productExists_meta_invariant sku f store, ?_, ?_⟩
  · simp [createProductMeta]
  · simp only [resolveSpuId, h1]
    have ht : optIntTruthy (some n) = true := by
      simp [optIntTruthy, h2]
    rw [if_pos ht]

/-- C6 (amended, witness): concrete store, metadata and oracle — the metadata
change is invisible to the SKU lookup and the stored id 555 wins over a
keyword search that would have returned 9. -/
theorem sku_lookup_and_meta_preference_split_witness :
    findMetaSpuId [⟨"_poizon_spu_id", "555"⟩] = some 555 ∧ (555:ℤ) ≠ 0 ∧
    resolveSpuId [⟨"_poizon_spu_id", "555"⟩] "A1" (fun _ => [9]) = some 555 :=
  ⟨rfl, by decide,
    (sku_lookup_and_meta_preference_split "A1" (fun _ => []) [] 7 555 "" ""
      [⟨"_poizon_spu_id", "555"⟩] (fun _ => [9]) rfl (by decide)).2.2⟩

/-! ## C8: batch error containment -/

/-- Folding the counter bump over a list of outcomes adds the per-outcome
occurrence counts to the initial tally. -/
theorem foldl_bumpTally (os : List Outcome) : ∀ t : SyncTally,
    os.foldl bumpTally t =
      ⟨t.created + os.count Outcome.created,
       t.updated + os.count Outcome.updated,
       t.skipped + os.count Outcome.skipped,
       t.error + os.count Outcome.error⟩ := by
  induction os with
  | nil => intro t; simp
  | cons o os ih =>
      intro t
      simp only [List.foldl_cons]
      rw [ih]
      cases o <;>
        simp [bumpTally, List.count_cons, SyncTally.mk.injEq] <;> omega

/-- Every outcome falls in exactly one of the four counters. -/
theorem count_outcomes_partition (os : List Outcome) :
    os.count Outcome.created + os.count Outcome.updated +
      os.count Outcome.skipped + os.count Outcome.error = os.length := by
  induction os with
  | nil => simp
  | cons o os ih =>
      cases o <;> simp [List.count_cons] <;> omega

/-- C8: `sync_all_products` never aborts on a candidate's failure: the final
tally is exactly the per-candidate outcome counts — each candidate's outcome
depends only on its own collaborator responses (`processCandidate`), failures
land in the error counter — and the four counters always sum to the number of
candidates, so every candidate of the batch is processed and tallied. -/
theorem sync_tally_counts_all_candidates (updateExisting : Bool)
    (cs : List CandidateRun) :
    syncAllProducts updateExisting cs =
      ⟨(cs.map (processCandidate updateExisting)).count Outcome.created,
       (cs.map (processCandidate updateExisting)).count Outcome.updated,
       (cs.map (processCandidate updateExisting)).count Outcome.skipped,
       (cs.map (processCandidate updateExisting)).count Outcome.error⟩ ∧
    (syncAllProducts updateExisting cs).created +
      (syncAllProducts updateExisting cs).updated +
      (syncAllProducts updateExisting cs).skipped +
      (syncAllProducts updateExisting cs).error = cs.length := by
  have hmain : syncAllProducts updateExisting cs =
      ⟨(cs.map (processCandidate updateExisting)).count Outcome.created,
       (cs.map (processCandidate updateExisting)).count Outcome.updated,
       (cs.map (processCandidate updateExisting)).count Outcome.skipped,
       (cs.map (processCandidate updateExisting)).count Outcome.error⟩ := by
    unfold syncAllProducts
    rw [← List.foldl_map (processCandidate updateExisting) bumpTally]
    rw [foldl_bumpTally]
    simp
  refine ⟨hmain, ?_⟩
  rw [hmain]
  have := count_outcomes_partition (cs.map (processCandidate updateExisting))
  simpa using this

/-! ## C7 / C10: the positional image partition -/

theorem isEmpty_false_of_length_pos {α : Type} (l : List α) (h : 0 < l.length) :
    l.isEmpty = false := by
  cases l with
  | nil => simp at h
  | cons a l => rfl

theorem sliceAt_length (images : List String) (ipc idx : ℕ)
    (h : idx * ipc + ipc ≤ images.length) :
    (sliceAt images ipc idx).length = ipc := by
  simp only [sliceAt, List.length_take, List.length_drop]
  omega

theorem sliceAt_isEmpty_false (images : List String) (ipc idx : ℕ)
    (hipc : 0 < ipc) (h : idx * ipc + ipc ≤ images.length) :
    (sliceAt images ipc idx).isEmpty = false := by
  apply isEmpty_false_of_length_pos
  rw [sliceAt_length images ipc idx h]
  exact hipc

theorem assignColorSlices_eq (images : List String) (ipc : ℕ) :
    ∀ (ids : List ℤ) (idx : ℕ) (m : List (ℤ × List String)),
      (∀ i ∈ ids, List.lookup i m = none) → ids.Nodup →
      assignColorSlices images ipc idx ids m
        = m ++ sliceEntries images ipc idx ids := by
  intro ids
  induction ids with
  | nil => intro idx m _ _; simp [assignColorSlices, sliceEntries]
  | cons cid rest ih =>
      intro idx m hfresh hnodup
      have hcid : List.lookup cid m = none := hfresh cid (List.mem_cons_self ..)
      have hrest : ∀ i ∈ rest, List.lookup i m = none :=
        fun i hi => hfresh i (List.mem_cons_of_mem _ hi)
      have hnotin : cid ∉ rest := (List.nodup_cons.mp hnodup).1
      simp only [assignColorSlices, sliceEntries]
      by_cases hs : (sliceAt images ipc idx).isEmpty
      · rw [if_pos hs, if_pos hs]
        rw [ih (idx + 1) m hrest (List.nodup_cons.mp hnodup).2]
        simp
      · rw [if_neg hs, if_neg hs]
        rw [dictInsert_fresh _ _ _ hcid]
        have hrest' : ∀ i ∈ rest,
            List.lookup i (m ++ [(cid, sliceAt images ipc idx)]) = none := by
          intro i hi
          rw [lookup_append]
          rw [hrest i hi]
          have hne : i ≠ cid := fun he => hnotin (he ▸ hi)
          simp [List.lookup, beq_false_of_ne hne]
        rw [ih (idx + 1) _ hrest' (List.nodup_cons.mp hnodup).2]
        simp

theorem sliceEntries_lookup (images : List String) (ipc : ℕ) (hipc : 0 < ipc) :
    ∀ (ids : List ℤ) (idx : ℕ), ids.Nodup →
      (∀ j, j < ids.length → (idx + j + 1) * ipc ≤ images.length) →
      ∀ i, (hi : i < ids.length) →
        List.lookup (ids.get ⟨i, hi⟩) (sliceEntries images ipc idx ids)
          = some (sliceAt images ipc (idx + i)) := by
  intro ids
  induction ids with
  | nil => intro idx _ _ i hi; simp at hi
  | cons cid rest ih =>
      intro idx hnodup hcond i hi
      have h0 : idx * ipc + ipc ≤ images.length := by
        have := hcond 0 (by simp)
        have heq : (idx + 0 + 1) * ipc = idx * ipc + ipc := by ring
        omega
      have hs : (sliceAt images ipc idx).isEmpty = false :=
        sliceAt_isEmpty_false images ipc idx hipc h0
      cases i with
      | zero =>
          simp only [sliceEntries, hs, Bool.false_eq_true, if_false,
            List.singleton_append, List.get]
          simp [List.lookup]
      | succ i =>
          have hi' : i < rest.length := by simpa using hi
          have hnotin : cid ∉ rest := (List.nodup_cons.mp hnodup).1
          have hmem : rest.get ⟨i, hi'⟩ ∈ rest := List.get_mem ..
          have hne : rest.get ⟨i, hi'⟩ ≠ cid := fun he => hnotin (he ▸ hmem)
          have hcond' : ∀ j, j < rest.length →
              (idx + 1 + j + 1) * ipc ≤ images.length := by
            intro j hj
            have := hcond (j + 1) (by simpa using Nat.succ_lt_succ hj)
            have heq : idx + (j + 1) + 1 = idx + 1 + j + 1 := by omega
            rw [heq] at this
            exact this
          have := ih (idx + 1) (List.nodup_cons.mp hnodup).2 hcond' i hi'
          simp only [sliceEntries, hs, Bool.false_eq_true, if_false,
            List.singleton_append, List.get]
          rw [List.lookup, beq_false_of_ne hne]
          rw [this]
          have heq : idx + 1 + i = idx + (i + 1) := by omega
          rw [heq]

theorem sliceEntries_sum (images : List String) (ipc : ℕ) (hipc : 0 < ipc) :
    ∀ (ids : List ℤ) (idx : ℕ),
      (∀ j, j < ids.length → (idx + j + 1) * ipc ≤ images.length) →
      ((sliceEntries images ipc idx ids).map (fun p => p.2.length)).sum
        = ids.length * ipc := by
  intro ids
  induction ids with
  | nil => intro idx _; simp [sliceEntries]
  | cons cid rest ih =>
      intro idx hcond
      have h0 : idx * ipc + ipc ≤ images.length := by
        have := hcond 0 (by simp)
        have heq : (idx + 0 + 1) * ipc = idx * ipc + ipc := by ring
        omega
      have hs : (sliceAt images ipc idx).isEmpty = false :=
        sliceAt_isEmpty_false images ipc idx hipc h0
      have hcond' : ∀ j, j < rest.length →
          (idx + 1 + j + 1) * ipc ≤ images.length := by
        intro j hj
        have := hcond (j + 1) (by simpa using Nat.succ_lt_succ hj)
        have heq : idx + (j + 1) + 1 = idx + 1 + j + 1 := by omega
        rw [heq] at this
        exact this
      simp only [sliceEntries, hs, Bool.false_eq_true, if_false,
        List.singleton_append, List.map_cons, List.sum_cons]
      rw [ih (idx + 1) hcond', sliceAt_length images ipc idx h0]
      simp only [List.length_cons]
      ring

/-- C7: with no explicit per-color grouping, a non-empty image list and a
color map with (distinct) keys, and a positive slice size
`images.length / colors`, the positional partition assigns the `i`-th color in
ascending `propertyValueId` order exactly the `i`-th contiguous slice of that
size, and the total number of images assigned is `colors * (images / colors)`
(for 20 images and 4 colors: 5 per color, 20 in total — see the witness). -/
theorem positional_partition_spec (images : List String)
    (cm : List (ℤ × String)) (himg : images ≠ [])
    (hnodup : (cm.map Prod.fst).Nodup)
    (hipc : 0 < images.length / cm.length) :
    List.Sorted (· ≤ ·) (sortedKeys cm) ∧
    (sortedKeys cm).Perm (cm.map Prod.fst) ∧
    (sortedKeys cm).length = cm.length ∧
    (∀ i, (hi : i < (sortedKeys cm).length) →
      List.lookup ((sortedKeys cm).get ⟨i, hi⟩)
          (buildColorImagesMap [] images cm)
        = some (sliceAt images (images.length / cm.length) i) ∧
      (sliceAt images (images.length / cm.length) i).length
        = images.length / cm.length) ∧
    ((buildColorImagesMap [] images cm).map (fun p => p.2.length)).sum
      = cm.length * (images.length / cm.length) := by
  have hc : 0 < cm.length := by
    rcases Nat.eq_zero_or_pos cm.length with h | h
    · rw [h] at hipc
      simp [Nat.div_zero] at hipc
    · exact h
  have hids_perm : (sortedKeys cm).Perm (cm.map Prod.fst) :=
    List.perm_insertionSort _ _
  have hids_sorted : List.Sorted (· ≤ ·) (sortedKeys cm) :=
    List.sorted_insertionSort _ _
  have hids_nodup : (sortedKeys cm).Nodup := hids_perm.nodup_iff.mpr hnodup
  have hids_len : (sortedKeys cm).length = cm.length := by
    rw [hids_perm.length_eq]
    simp
  have himg' : images.isEmpty = false := by
    cases images with
    | nil => exact absurd rfl himg
    | cons a l => rfl
  have hmap : buildColorImagesMap [] images cm
      = sliceEntries images (images.length / cm.length) 0 (sortedKeys cm) := by
    unfold buildColorImagesMap
    rw [if_neg (by simp)]
    rw [if_pos (by rw [himg']; simpa using hc)]
    rw [assignColorSlices_eq images _ (sortedKeys cm) 0 []
      (fun i _ => rfl) hids_nodup]
    simp
  have hbound : ∀ k, k + 1 ≤ cm.length →
      k * (images.length / cm.length) + images.length / cm.length
        ≤ images.length := by
    intro k hk
    have h2 : (k + 1) * (images.length / cm.length)
        ≤ cm.length * (images.length / cm.length) :=
      Nat.mul_le_mul_right _ hk
    have h3 : cm.length * (images.length / cm.length) ≤ images.length := by
      rw [mul_comm]
      exact Nat.div_mul_le_self images.length cm.length
    have heq : (k + 1) * (images.length / cm.length)
        = k * (images.length / cm.length) + images.length / cm.length := by
      ring
    omega
  have hcond : ∀ j, j < (sortedKeys cm).length →
      (0 + j + 1) * (images.length / cm.length) ≤ images.length := by
    intro j hj
    rw [hids_len] at hj
    have := hbound j hj
    have heq : (0 + j + 1) * (images.length / cm.length)
        = j * (images.length / cm.length) + images.length / cm.length := by
      ring
    omega
  refine ⟨hids_sorted, hids_perm, hids_len, ?_, ?_⟩
  · intro i hi
    refine ⟨?_, ?_⟩
    · rw [hmap]
      have := sliceEntries_lookup images _ hipc (sortedKeys cm) 0
        hids_nodup hcond i hi
      simpa using this
    · apply sliceAt_length
      apply hbound
      rw [hids_len] at hi
      exact hi
  · rw [hmap, sliceEntries_sum images _ hipc (sortedKeys cm) 0 hcond,
      hids_len]

/-- C7 (witness): 20 images and 4 colors (ids 101-104 in scrambled map
order): the first color in ascending id order (101) gets exactly the first 5
images and the total number of assigned images is 20. -/
theorem positional_partition_spec_witness :
    (["i1", "i2", "i3", "i4", "i5", "i6", "i7", "i8", "i9", "i10", "i11",
      "i12", "i13", "i14", "i15", "i16", "i17", "i18", "i19", "i20"]
        : List String) ≠ [] ∧
    (0:ℕ) < 20 / 4 ∧
    List.lookup 101 (buildColorImagesMap []
        ["i1", "i2", "i3", "i4", "i5", "i6", "i7", "i8", "i9", "i10", "i11",
         "i12", "i13", "i14", "i15", "i16", "i17", "i18", "i19", "i20"]
        [(104, "a"), (101, "b"), (103, "c"), (102, "d")])
      = some ["i1", "i2", "i3", "i4", "i5"] ∧
    ((buildColorImagesMap []
        ["i1", "i2", "i3", "i4", "i5", "i6", "i7", "i8", "i9", "i10", "i11",
         "i12", "i13", "i14", "i15", "i16", "i17", "i18", "i19", "i20"]
        [(104, "a"), (101, "b"), (103, "c"), (102, "d")]).map
          (fun p => p.2.length)).sum = 20 := by
  have h := positional_partition_spec
    ["i1", "i2", "i3", "i4", "i5", "i6", "i7", "i8", "i9", "i10", "i11",
     "i12", "i13", "i14", "i15", "i16", "i17", "i18", "i19", "i20"]
    [(104, "a"), (101, "b"), (103, "c"), (102, "d")]
    (by decide) (by decide) (by decide)
  refine ⟨by decide, by decide, ?_, ?_⟩
  · exact (h.2.2.2.1 0 (by decide)).1
  · exact h.2.2.2.2

/-- With slice size 0 every slice is empty, so the partition loop leaves the
accumulator untouched. -/
theorem assignColorSlices_zero (images : List String) :
    ∀ (ids : List ℤ) (idx : ℕ) (m : List (ℤ × List String)),
      assignColorSlices images 0 idx ids m = m := by
  intro ids
  induction ids with
  | nil => intro idx m; rfl
  | cons cid rest ih =>
      intro idx m
      have hs : (sliceAt images 0 idx).isEmpty = true := by
        simp [sliceAt]
      simp only [assignColorSlices, hs, if_true]
      exact ih (idx + 1) m

/-- Color-specific image selection against an empty color-image map always
yields no images. -/
theorem colorImagesFor_nil (colorMap : List (ℤ × String))
    (color : Option String) (props : List SkuProp) :
    colorImagesFor colorMap [] color props = [] := by
  unfold colorImagesFor
  split
  · rename_i pv _
    by_cases hpv : (pv != 0) = true
    · rw [if_pos hpv]
      simp [List.lookup]
    · rw [if_neg hpv]
  · rfl

/-- With an empty color-image map, every variation the loop body emits has no
dedicated images. -/
theorem buildVariationStep_images_none (sizeMap colorMap : List (ℤ × String))
    (saleProperties : List SaleProp) (skusArray : List SkuItem)
    (state : VarLoopState) (skuIdStr : String) (priceData : PriceEntry)
    (v : Variation) (state' : VarLoopState)
    (h : buildVariationStep sizeMap colorMap saleProperties skusArray []
        state skuIdStr priceData = Except.ok (v, state')) :
    v.images = none := by
  unfold buildVariationStep at h
  split at h
  · exact absurd h (by simp)
  · rename_i size color props heq
    rw [colorImagesFor_nil] at h
    simp only [List.isEmpty_nil, if_true, Except.ok.injEq, Prod.mk.injEq] at h
    rw [← h.1]

/-- With an empty color-image map, every variation emitted by the loop has no
dedicated images, whatever the loop state. -/
theorem buildVariationsGo_images_none (sizeMap colorMap : List (ℤ × String))
    (saleProperties : List SaleProp) (skusArray : List SkuItem) :
    ∀ (prices : List (String × PriceEntry)) (state : VarLoopState)
      (vs : List Variation),
      buildVariationsGo sizeMap colorMap saleProperties skusArray [] state
          prices = Except.ok vs →
      ∀ v ∈ vs, v.images = none := by
  intro prices
  induction prices with
  | nil =>
      intro state vs h v hv
      simp only [buildVariationsGo] at h
      cases h
      simp at hv
  | cons hd tl ih =>
      intro state vs h v hv
      simp only [buildVariationsGo] at h
      split at h
      · exact absurd h (by simp)
      · rename_i v1 state1 hstep
        split at h
        · exact absurd h (by simp)
        · rename_i vs1 hgo
          cases h
          rcases List.mem_cons.mp hv with he | hm
          · subst he
            exact buildVariationStep_images_none _ _ _ _ _ _ _ _ _ hstep
          · exact ih state1 vs1 hgo v hm

/-- C10: when the explicit grouping is absent and there are fewer images than
colors, the integer division yields slice size 0, every slice is empty, and
the color-to-image map stays empty (no error is raised — the partition is a
total function); consequently every variation that the variant loop emits
against that empty map carries no dedicated images (`images` key absent, so
the write path falls back to the shared parent images). -/
theorem partition_empty_when_fewer_images_than_colors (images : List String)
    (cm : List (ℤ × String)) (h : images.length < cm.length) :
    buildColorImagesMap [] images cm = [] ∧
    ∀ (sizeMap : List (ℤ × String)) (saleProperties : List SaleProp)
      (skusArray : List SkuItem) (prices : List (String × PriceEntry))
      (vs : List Variation),
      buildVariations sizeMap cm saleProperties skusArray
          (buildColorImagesMap [] images cm) prices = Except.ok vs →
      ∀ v ∈ vs, v.images = none := by
  have h1 : buildColorImagesMap [] images cm = [] := by
    unfold buildColorImagesMap
    rw [if_neg (by simp)]
    by_cases hg : (!images.isEmpty && decide (cm.length > 0)) = true
    · rw [if_pos hg, Nat.div_eq_of_lt h, assignColorSlices_zero]
    · rw [if_neg hg]
  refine ⟨h1, ?_⟩
  intro sizeMap saleProperties skusArray prices vs hb v hv
  rw [h1] at hb
  exact buildVariationsGo_images_none sizeMap cm saleProperties skusArray
    prices none vs hb v hv

/-- C10 (witness): 2 images and 3 colors — the partition map is empty and a
variation built against it has no dedicated images. -/
theorem partition_empty_when_fewer_images_than_colors_witness :
    (["a", "b"] : List String).length
        < ([(1, "x"), (2, "y"), (3, "z")] : List (ℤ × String)).length ∧
    buildColorImagesMap [] ["a", "b"] [(1, "x"), (2, "y"), (3, "z")] = [] ∧
    (⟨"10", "10", 50, 1, none, none⟩ : Variation).images = none := by
  have h := partition_empty_when_fewer_images_than_colors ["a", "b"]
    [(1, "x"), (2, "y"), (3, "z")] (by decide)
  refine ⟨by decide, h.1, ?_⟩
  exact h.2 [] [] [⟨"10", []⟩] [("10", ⟨50, 1⟩)]
    [⟨"10", "10", 50, 1, none, none⟩] rfl _ (List.mem_singleton.mpr rfl)

end Spec2Proof
